import Mathlib

/-!
Verification development for the visceral-fat analyzer.

The development shallowly embeds the frontend client code
(`frontend/src/stores/appStore.ts`, `frontend/src/services/api.ts`,
`frontend/src/components/ui/ViewModeToggle.tsx`,
`frontend/src/components/viewers/ThreeDViewer.tsx`) and — where the backend
source is absent — models the statistics aggregation from the written design
(§4.2).  Numbers that the TypeScript code handles as JS numbers are embedded
as `Int`, or as `Rat` where exact fractional arithmetic is asserted; the JS
`NaN` produced by `parseInt` is embedded as `Option Int` with `none` for NaN.
-/

/-! ## Data model (frontend/src/types/index.ts) -/

/-- `DicomSeries` from types/index.ts (fields relevant to the store). -/
structure DicomSeries where
  series_uid : String
  series_description : String
  modality : String
  image_count : Int
  deriving DecidableEq

/-- `DicomImage` from types/index.ts. -/
structure DicomImage where
  index : Int
  instance_number : Int
  slice_location : Option Rat
  deriving DecidableEq

/-- `SliceStats` from types/index.ts. -/
structure SliceStats where
  index : Int
  visceral_fat_pixels : Nat
  subcutaneous_fat_pixels : Nat
  visceral_fat_area_cm2 : Rat
  deriving DecidableEq

/-- `TissueStats` from types/index.ts. -/
structure TissueStats where
  total_visceral_fat_volume : Rat
  total_subcutaneous_fat_volume : Rat
  visceral_fat_percentage : Rat
  slice_stats : List SliceStats
  deriving DecidableEq

/-- `AnalyzedImage` from types/index.ts. -/
structure AnalyzedImage where
  index : Int
  colored_image_path : String
  stats : SliceStats
  deriving DecidableEq

/-- `AnalysisResult` from types/index.ts. -/
structure AnalysisResult where
  series_id : String
  image_count : Int
  analyzed_images : List AnalyzedImage
  tissue_stats : TissueStats
  deriving DecidableEq

/-- `TissueInfo` from types/index.ts. -/
structure TissueInfo where
  name : String
  color : String
  opacity : Rat
  deriving DecidableEq

/-- `ModelInfo` from types/index.ts. -/
structure ModelInfo where
  series_id : String
  tissues : List TissueInfo
  slice_count : Int
  dimensions : List Int
  voxel_spacing : List Rat
  glb_path : Option String
  obj_path : Option String
  deriving DecidableEq

/-- The `type` discriminant of `AnalysisProgress` from types/index.ts. -/
inductive ProgressType where
  | start
  | progress
  | complete
  | error
  deriving DecidableEq

/-- `AnalysisProgress` from types/index.ts: one streamed analysis event. -/
structure AnalysisProgress where
  type : ProgressType
  message : String
  progress : Int
  total_images : Option Int
  current_image : Option Int
  step : Option String
  data : Option AnalysisResult
  deriving DecidableEq

/-! ## Statistics aggregation (backend, modelled from the spec §4.2) -/

/-- Modelled from the spec: the `VolumeModel` spacing metadata (§3) — in-plane
pixel spacing x,y and inter-slice spacing z, all in millimetres.  The backend
source that carries this data is not part of the repository snapshot. -/
structure Spacing where
  x : Rat
  y : Rat
  z : Rat
  deriving DecidableEq

/-- Modelled from the spec: per-slice fat area in cm² (§4.2) — voxel count ×
pixel_spacing_x × pixel_spacing_y in mm², divided by 100 to convert to cm².
The backend StatsAggregator source is not part of the repository snapshot. -/
def sliceAreaCm2 (count : Nat) (sp : Spacing) : Rat :=
  (count : Rat) * sp.x * sp.y / 100

/-- Modelled from the spec: per-slice volume contribution in cm³ (§4.2) —
area (cm²) × slice thickness (mm converted to cm). -/
def sliceVolumeCm3 (count : Nat) (sp : Spacing) : Rat :=
  sliceAreaCm2 count sp * (sp.z / 10)

/-- Modelled from the spec: fat distribution percentage (§4.2) —
visceral / (visceral + subcutaneous) × 100, reporting 0 when both totals are
zero so the division is never by zero. -/
def fatPercentage (v s : Rat) : Rat :=
  if v = 0 ∧ s = 0 then 0 else v / (v + s) * 100

/-- Modelled from the spec: aggregation of per-slice visceral/subcutaneous fat
voxel counts into `TissueStats` (§4.2) — additive volume sums across slices
plus the guarded percentage.  The backend StatsAggregator source is not part
of the repository snapshot. -/
def aggregateStats (visCounts subCounts : List Nat) (sp : Spacing) : TissueStats :=
  { total_visceral_fat_volume := (visCounts.map (fun c => sliceVolumeCm3 c sp)).sum
    total_subcutaneous_fat_volume := (subCounts.map (fun c => sliceVolumeCm3 c sp)).sum
    visceral_fat_percentage :=
      fatPercentage
        ((visCounts.map (fun c => sliceVolumeCm3 c sp)).sum)
        ((subCounts.map (fun c => sliceVolumeCm3 c sp)).sum)
    slice_stats :=
      (List.zip visCounts subCounts).enum.map (fun p =>
        { index := (p.1 : Int)
          visceral_fat_pixels := p.2.1
          subcutaneous_fat_pixels := p.2.2
          visceral_fat_area_cm2 := sliceAreaCm2 p.2.1 sp }) }

/-! ## Client store state (frontend/src/stores/appStore.ts)

The Zustand store state.  The TS `viewMode` field is declared with the union
type `ViewMode`, but at runtime it holds whatever string was written into it
(the store restores `localStorage.getItem(...) as ViewMode` without runtime
validation), so it is embedded as `String`.  JS `Set<string>` is embedded as
`Finset String`. -/
structure AppStore where
  series : List DicomSeries
  selectedSeries : Option DicomSeries
  analyzedSeriesIds : Finset String
  modelSeriesIds : Finset String
  images : List DicomImage
  selectedImageIndex : Int
  analysisResult : Option AnalysisResult
  isAnalyzing : Bool
  analysisProgress : Option AnalysisProgress
  modelInfo : Option ModelInfo
  isGeneratingModel : Bool
  viewMode : String
  isLoading : Bool
  uploadMessage : Option String
  error : Option String
  deriving DecidableEq

/-- The store's initial state (appStore.ts, the literal after `create`). -/
def initialState : AppStore :=
  { series := []
    selectedSeries := none
    analyzedSeriesIds := ∅
    modelSeriesIds := ∅
    images := []
    selectedImageIndex := 0
    analysisResult := none
    isAnalyzing := false
    analysisProgress := none
    modelInfo := none
    isGeneratingModel := false
    viewMode := "original"
    isLoading := false
    uploadMessage := none
    error := none }

/-! ## ViewModeToggle (frontend/src/components/ui/ViewModeToggle.tsx) -/

/-- The observable outcome of a click handler in ViewModeToggle.tsx. -/
inductive ClickAction where
  | setView (mode : String)
  | callGenerateModel
  | noop
  deriving DecidableEq

/-- `handle3DClick` from ViewModeToggle.tsx: switch to the 3D view when a
model already exists, otherwise trigger generation only when an analysis
result exists and no generation is running. -/
def handle3DClick (s : AppStore) : ClickAction :=
  match s.modelInfo with
  | some _ => .setView "3d"
  | none =>
    if s.analysisResult.isSome ∧ ¬ s.isGeneratingModel then .callGenerateModel
    else .noop

/-- The record returned by the button-state helpers in ViewModeToggle.tsx. -/
structure ButtonState where
  label : String
  isAction : Bool
  disabled : Bool
  deriving DecidableEq

/-- `get3DButtonState` from ViewModeToggle.tsx. -/
def get3DButtonState (s : AppStore) : ButtonState :=
  if s.isGeneratingModel then
    { label := "Generating...", isAction := true, disabled := true }
  else if s.modelInfo.isNone then
    { label := "Generate 3D", isAction := true, disabled := s.analysisResult.isNone }
  else
    { label := "3D Model", isAction := false, disabled := false }

/-! ## Analysis progress consumption (appStore.ts, `analyzeSeries`) -/

/-- One invocation of the `onProgress` callback inside `analyzeSeries`
(appStore.ts): every event is stored into `analysisProgress`; a `complete`
event carrying a payload stores the payload, marks the series analyzed,
switches to the analyzed view and clears the analyzing flag; an `error`
event records the message and clears the analyzing flag.  `uid` is the
captured `selectedSeries.series_uid`. -/
def progressStep (uid : String) (s : AppStore) (p : AnalysisProgress) : AppStore :=
  let s1 := { s with analysisProgress := some p }
  if p.type = .complete ∧ p.data.isSome then
    { s1 with
      analysisResult := p.data
      isAnalyzing := false
      analysisProgress := none
      analyzedSeriesIds := insert uid s1.analyzedSeriesIds
      viewMode := "analyzed" }
  else if p.type = .error then
    { s1 with
      error := some p.message
      isAnalyzing := false
      analysisProgress := none }
  else s1

/-- An event the `analyzeSeries` callback treats as terminal: a `complete`
event carrying a payload, or an `error` event. -/
def isTerminalEvent (p : AnalysisProgress) : Prop :=
  (p.type = .complete ∧ p.data.isSome) ∨ p.type = .error

instance (p : AnalysisProgress) : Decidable (isTerminalEvent p) := by
  unfold isTerminalEvent; infer_instance

/-- Number of events at which the analyzing flag transitions from set to
cleared, along the trajectory of `progressStep` over an event list. -/
def clearCount (uid : String) (s : AppStore) : List AnalysisProgress → Nat
  | [] => 0
  | p :: ps =>
    let s2 := progressStep uid s p
    (if s.isAnalyzing && !s2.isAnalyzing then 1 else 0) + clearCount uid s2 ps

/-! ## Model-generation polling (appStore.ts `generateModel`, api.ts) -/

/-- The response shape of `getModelGenerationStatus` (api.ts). -/
structure ModelGenStatus where
  status : String
  progress : Int
  message : String
  data : Option ModelInfo
  error : Option String
  deriving DecidableEq

/-- What one round of `pollStatus` inside `generateModel` (appStore.ts) does
with a status response. -/
inductive PollAction where
  | concludeComplete (m : ModelInfo)
  | concludeError (msg : String)
  | continuePolling
  | stopSilently
  deriving DecidableEq

/-- The status dispatch of `pollStatus` inside `generateModel` (appStore.ts):
`complete` with data stores the model and concludes, `error` records the
message (defaulting when empty, JS `||`) and concludes, `generating`
schedules another poll — and any other status, `queued` included, falls
through every branch and the polling chain ends with no state change. -/
def pollStep (st : ModelGenStatus) : PollAction :=
  if h : st.status = "complete" ∧ st.data.isSome then
    .concludeComplete (st.data.get h.2)
  else if st.status = "error" then
    .concludeError (if st.message = "" then "Model generation failed" else st.message)
  else if st.status = "generating" then
    .continuePolling
  else
    .stopSilently

/-- The legacy polling loop of `generateModel` (api.ts): repeatedly fetch the
status, return the model on `complete` with data, fail on `error`, and keep
polling on every other status.  Applied to the finite list of statuses the
endpoint returns; `none` means the loop is still polling after consuming
them all. -/
def apiPollLoop : List ModelGenStatus → Option (Except String ModelInfo)
  | [] => none
  | st :: rest =>
    if h : st.status = "complete" ∧ st.data.isSome then
      some (.ok (st.data.get h.2))
    else if st.status = "error" then
      some (.error (if st.message = "" then "Model generation failed" else st.message))
    else
      apiPollLoop rest

/-! ## Clear operations (appStore.ts) -/

/-- `clearAnalysisAndModels` from appStore.ts (success path of the api call,
whose backend endpoint the design guarantees never fails): reset every
analysis/model artifact and tracking set, return to the original view. -/
def clearAnalysisAndModels (s : AppStore) : AppStore :=
  { s with
    analysisResult := none
    modelInfo := none
    analyzedSeriesIds := ∅
    modelSeriesIds := ∅
    viewMode := "original"
    isLoading := false
    uploadMessage := some "Analysis and models cleared!"
    error := none }

/-- `clearSeriesResults` from appStore.ts (success path of the api call,
whose backend endpoint the design guarantees never fails): no-op without a
selected series; otherwise drop the selected series from both tracking sets,
null the cached artifacts and return to the original view. -/
def clearSeriesResults (s : AppStore) : AppStore :=
  match s.selectedSeries with
  | none => s
  | some sel =>
    { s with
      analyzedSeriesIds := s.analyzedSeriesIds.erase sel.series_uid
      modelSeriesIds := s.modelSeriesIds.erase sel.series_uid
      analysisResult := none
      modelInfo := none
      viewMode := "original"
      isLoading := false
      uploadMessage := some "Series data cleared!"
      error := none }

/-! ## Session restore (appStore.ts `loadViewState` and the startup action) -/

/-- JS `parseInt(s, 10)`: skip leading whitespace, optional sign, then the
leading run of decimal digits; `none` embeds the `NaN` returned when no
digit follows. -/
def leadDigits : List Char → List Nat
  | [] => []
  | c :: cs => if c.isDigit then (c.toNat - 48) :: leadDigits cs else []

/-- JS `parseInt(s, 10)` on the string's characters. -/
def parseIntJs (s : String) : Option Int :=
  let cs := s.data.dropWhile (fun c => c = ' ' ∨ c = '\t' ∨ c = '\n' ∨ c = '\r')
  let signed : Int × List Char :=
    match cs with
    | '-' :: r => (-1, r)
    | '+' :: r => (1, r)
    | r => (1, r)
  let ds := leadDigits signed.2
  if ds = [] then none
  else some (signed.1 * ds.foldl (fun acc d => acc * 10 + (d : Int)) 0)

/-- The record returned by `loadViewState` (appStore.ts). -/
structure SavedViewState where
  seriesUid : Option String
  viewMode : String
  imageIndex : Option Int
  deriving DecidableEq

/-- `loadViewState` from appStore.ts over the three raw localStorage values
(`none` = key absent): the saved series uid passes through unchanged, the
saved mode is cast without validation with `|| 'original'` supplying the
default for a missing or empty value, and the saved index goes through
`parseInt(... || '0', 10)`. -/
def loadViewState (rawUid rawMode rawIndex : Option String) : SavedViewState :=
  { seriesUid := rawUid
    viewMode :=
      match rawMode with
      | none => "original"
      | some m => if m = "" then "original" else m
    imageIndex :=
      parseIntJs
        (match rawIndex with
         | none => "0"
         | some i => if i = "" then "0" else i) }

/-- The view-mode adjustment inside the startup action (appStore.ts): a saved
`analyzed` without an analysis result falls back to `original`; a saved `3d`
without a model falls back to `analyzed` when an analysis exists, else to
`original`; every other saved string is kept as-is. -/
def resolveViewMode (savedMode : String) (ar : Option AnalysisResult)
    (mi : Option ModelInfo) : String :=
  let vm1 := if savedMode = "analyzed" ∧ ar = none then "original" else savedMode
  if vm1 = "3d" ∧ mi = none then
    (if ar.isSome then "analyzed" else "original")
  else vm1

/-- The image-index validation inside the startup action (appStore.ts):
`Math.min(Math.max(0, saved), images.length - 1)` followed by
`imageIndex >= 0 ? imageIndex : 0`; a `NaN` saved value (`none`) propagates
through `min`/`max`, fails the `>= 0` comparison and yields 0. -/
def clampIndex (saved : Option Int) (len : Nat) : Int :=
  match saved with
  | none => 0
  | some v =>
    let idx := min (max 0 v) ((len : Int) - 1)
    if idx ≥ 0 then idx else 0

/-- The payload of `initializeExistingData` (api.ts). -/
structure InitData where
  series : List DicomSeries
  analyzed_series : List String
  model_series : List String
  deriving DecidableEq

/-- The startup action of the store (appStore.ts): scan existing data, then
restore the saved view state.  External calls enter as parameters: `d` is the
init payload (`none` = the api call threw), `rawUid`/`rawMode`/`rawIndex` are
the raw localStorage values, and `fetchImages`/`fetchAnalysis`/`fetchModel`
are the per-series api calls (`none` = the call threw, which the code
swallows). -/
def initStore (s : AppStore) (d : Option InitData)
    (rawUid rawMode rawIndex : Option String)
    (fetchImages : String → Option (List DicomImage))
    (fetchAnalysis : String → Option AnalysisResult)
    (fetchModel : String → Option ModelInfo) : AppStore :=
  match d with
  | none => { s with isLoading := false, error := none }
  | some d =>
    let s1 := { s with
      series := d.series
      analyzedSeriesIds := d.analyzed_series.toFinset
      modelSeriesIds := d.model_series.toFinset
      isLoading := false
      error := none }
    let saved := loadViewState rawUid rawMode rawIndex
    match saved.seriesUid with
    | none => s1
    | some uid =>
      if uid = "" ∨ d.series = [] then s1
      else
        match d.series.find? (fun se => se.series_uid == uid) with
        | none => s1
        | some savedSeries =>
          let s2 := { s1 with selectedSeries := some savedSeries, isLoading := true }
          match fetchImages savedSeries.series_uid with
          | none => { s2 with isLoading := false }
          | some images =>
            let ar := fetchAnalysis savedSeries.series_uid
            let mi := fetchModel savedSeries.series_uid
            { s2 with
              images := images
              selectedImageIndex := clampIndex saved.imageIndex images.length
              analysisResult := ar
              modelInfo := mi
              viewMode := resolveViewMode saved.viewMode ar mi
              isLoading := false }

/-! ## 3D viewer tissue assignment (ThreeDViewer.tsx, `Model`) -/

/-- One mesh of the loaded GLB scene as the viewer sees it: its node `name`
is the explicit metadata the GLB carries, the remaining fields are the
rendering attributes the opacity effect mutates. -/
structure GlbMesh where
  name : String
  visible : Bool
  materialColor : Nat
  opacity : Rat
  deriving DecidableEq

/-- `tissueOrder` from ThreeDViewer.tsx (comment in source: tissue order as
exported by the backend — body, visceral_fat, organs). -/
def tissueOrder : List String := ["body", "visceral_fat", "organs"]

/-- `tissueColors` from ThreeDViewer.tsx. -/
def tissueColors (key : String) : Option Nat :=
  if key = "body" then some 0xC8C8C8
  else if key = "visceral_fat" then some 0xFFA500
  else if key = "subcutaneous_fat" then some 0xFFFF00
  else if key = "organs" then some 0x0080FF
  else none

/-- `DEFAULT_OPACITY` from ThreeDViewer.tsx as a lookup. -/
def DEFAULT_OPACITY (key : String) : Option Rat :=
  if key = "body" then some (35 / 100)
  else if key = "visceral_fat" then some 1
  else if key = "subcutaneous_fat" then some 1
  else if key = "organs" then some 1
  else none

/-- The body of `meshes.forEach((mesh, index) => ...)` in the opacity effect
of `Model` (ThreeDViewer.tsx): the tissue key comes from `tissueOrder[index]`;
when the key is undefined or absent from the opacity map the mesh is left
unchanged, otherwise its visibility, material color and opacity are replaced
from the key alone. -/
def updateMeshAt (opac : String → Option Rat) (i : Nat) (mesh : GlbMesh) : GlbMesh :=
  match tissueOrder.get? i with
  | none => mesh
  | some key =>
    match opac key with
    | none => mesh
    | some o =>
      { mesh with
        visible := decide (0 < o)
        materialColor := (tissueColors key).getD mesh.materialColor
        opacity := o }

/-- The indexed traversal of the opacity effect, starting at index `i`. -/
def applyOpacityFrom (opac : String → Option Rat) : Nat → List GlbMesh → List GlbMesh
  | _, [] => []
  | i, m :: ms => updateMeshAt opac i m :: applyOpacityFrom opac (i + 1) ms

/-- The whole opacity effect of `Model` (ThreeDViewer.tsx): every collected
mesh is updated according to its position in the collected list. -/
def applyTissueOpacity (opac : String → Option Rat) (ms : List GlbMesh) : List GlbMesh :=
  applyOpacityFrom opac 0 ms

/-- The rendering attributes of a mesh, without its name metadata. -/
def renderAttrs (m : GlbMesh) : Bool × Nat × Rat :=
  (m.visible, m.materialColor, m.opacity)

/-- Replace the name metadata of the mesh at position `i`, keeping the
rendering attributes (out-of-range `i` leaves the list unchanged). -/
def renameAt (ms : List GlbMesh) (i : Nat) (n : String) : List GlbMesh :=
  match ms.get? i with
  | none => ms
  | some m => ms.set i { m with name := n }

/-! ## Progress-stream parsing (api.ts, `analyzeSeriesWithProgress`) -/

/-- The frame splitter of `analyzeSeriesWithProgress` (api.ts):
`buffer.split('\n\n')` with the last element popped back into the buffer,
as one pass over the characters — the first component is the list of
completed frames, the second the retained buffer. -/
def splitFrames : List Char → List (List Char) × List Char
  | [] => ([], [])
  | [c] => ([], [c])
  | c :: d :: rest =>
    if c = '\n' ∧ d = '\n' then
      let p := splitFrames rest
      ([] :: p.1, p.2)
    else
      let p := splitFrames (d :: rest)
      match p with
      | ([], r) => ([], c :: r)
      | (s :: ss, r) => ((c :: s) :: ss, r)

/-- The per-frame dispatch of `analyzeSeriesWithProgress` (api.ts): a frame
starting with `data: ` has its remainder JSON-decoded and delivered, a
malformed payload (`decode` = `none`, the catch around `JSON.parse`) and any
other frame are skipped.  `decode` abstracts `JSON.parse` followed by the
conversion to `AnalysisProgress`. -/
def parseFrame (decode : List Char → Option AnalysisProgress)
    (seg : List Char) : Option AnalysisProgress :=
  match seg with
  | 'd' :: 'a' :: 't' :: 'a' :: ':' :: ' ' :: rest => decode rest
  | _ => none

/-- One iteration of the reader loop of `analyzeSeriesWithProgress` (api.ts):
append the decoded chunk to the buffer, split off the completed frames,
deliver their events in order, retain the remainder. -/
def processChunk (decode : List Char → Option AnalysisProgress)
    (st : List AnalysisProgress × List Char) (chunk : List Char) :
    List AnalysisProgress × List Char :=
  let p := splitFrames (st.2 ++ chunk)
  (st.1 ++ p.1.filterMap (parseFrame decode), p.2)

/-- The whole reader loop of `analyzeSeriesWithProgress` (api.ts) over the
successive chunks of the response body, from an empty buffer: delivered
events in delivery order, plus the final retained buffer. -/
def processStream (decode : List Char → Option AnalysisProgress)
    (chunks : List (List Char)) : List AnalysisProgress × List Char :=
  chunks.foldl (processChunk decode) ([], [])

/-! ## Claim theorems -/

/-- C2: for every aggregated result, the fat-distribution percentage equals
visceral_volume / (visceral_volume + subcutaneous_volume) × 100, and equals 0
when both totals are zero; the synthetic 3-slice volume with spacing
(1mm,1mm,2mm) and a 10×10-voxel all-visceral fat region per slice yields
total visceral volume 0.6 cm³, subcutaneous totals 0 and percentage 100%. -/
theorem claim_C2_fat_distribution (visCounts subCounts : List Nat) (sp : Spacing) :
    (¬((aggregateStats visCounts subCounts sp).total_visceral_fat_volume = 0
        ∧ (aggregateStats visCounts subCounts sp).total_subcutaneous_fat_volume = 0) →
      (aggregateStats visCounts subCounts sp).visceral_fat_percentage
        = (aggregateStats visCounts subCounts sp).total_visceral_fat_volume
            / ((aggregateStats visCounts subCounts sp).total_visceral_fat_volume
                + (aggregateStats visCounts subCounts sp).total_subcutaneous_fat_volume)
            * 100)
    ∧ ((aggregateStats visCounts subCounts sp).total_visceral_fat_volume = 0
        ∧ (aggregateStats visCounts subCounts sp).total_subcutaneous_fat_volume = 0 →
      (aggregateStats visCounts subCounts sp).visceral_fat_percentage = 0)
    ∧ (aggregateStats [100, 100, 100] [0, 0, 0] ⟨1, 1, 2⟩).total_visceral_fat_volume = 6 / 10
    ∧ (aggregateStats [100, 100, 100] [0, 0, 0] ⟨1, 1, 2⟩).total_subcutaneous_fat_volume = 0
    ∧ (aggregateStats [100, 100, 100] [0, 0, 0] ⟨1, 1, 2⟩).visceral_fat_percentage = 100 := by
  refine ⟨?_, ?_,
    by norm_num [aggregateStats, sliceVolumeCm3, sliceAreaCm2],
    by norm_num [aggregateStats, sliceVolumeCm3, sliceAreaCm2],
    by norm_num [aggregateStats, sliceVolumeCm3, sliceAreaCm2, fatPercentage]⟩
  · intro h
    simp only [aggregateStats, fatPercentage] at *
    rw [if_neg h]
  · intro h
    simp only [aggregateStats, fatPercentage] at *
    rw [if_pos h]

/-- Witness for C2 at the synthetic example: the totals are not both zero and
the percentage equals the quotient formula there. -/
theorem claim_C2_witness :
    (aggregateStats [100, 100, 100] [0, 0, 0] ⟨1, 1, 2⟩).visceral_fat_percentage
      = (aggregateStats [100, 100, 100] [0, 0, 0] ⟨1, 1, 2⟩).total_visceral_fat_volume
          / ((aggregateStats [100, 100, 100] [0, 0, 0] ⟨1, 1, 2⟩).total_visceral_fat_volume
              + (aggregateStats [100, 100, 100] [0, 0, 0] ⟨1, 1, 2⟩).total_subcutaneous_fat_volume)
          * 100 :=
  (claim_C2_fat_distribution [100, 100, 100] [0, 0, 0] ⟨1, 1, 2⟩).1
    (by norm_num [aggregateStats, sliceVolumeCm3, sliceAreaCm2])

/-- C3: for every client state without an analysis result, the generate-3D
action cannot be invoked — the 3D click handler never calls generateModel,
and while no model exists the 3D button is disabled. -/
theorem claim_C3_generation_needs_analysis (s : AppStore)
    (h : s.analysisResult = none) :
    handle3DClick s ≠ ClickAction.callGenerateModel
    ∧ (s.modelInfo = none → (get3DButtonState s).disabled = true) := by
  constructor
  · unfold handle3DClick
    cases hm : s.modelInfo with
    | some m => simp
    | none => simp [h]
  · intro hm
    unfold get3DButtonState
    by_cases hg : s.isGeneratingModel <;> simp [hg, hm, h]

/-- Witness for C3 at the store's initial state. -/
theorem claim_C3_witness :
    handle3DClick initialState ≠ ClickAction.callGenerateModel
    ∧ (initialState.modelInfo = none →
        (get3DButtonState initialState).disabled = true) :=
  claim_C3_generation_needs_analysis initialState rfl

/-- C5: against the claim that polling continues on every non-terminal status,
the store's poll dispatch on a `queued` status falls through every branch —
it neither concludes nor schedules another poll, while the legacy api loop on
the same status would keep polling. -/
theorem claim_C5_queued_stops_polling :
    pollStep { status := "queued", progress := 0, message := "", data := none, error := none }
      = PollAction.stopSilently
    ∧ PollAction.stopSilently ≠ PollAction.continuePolling
    ∧ apiPollLoop
        [{ status := "queued", progress := 0, message := "", data := none, error := none }]
      = none := by
  exact ⟨by decide, by decide, rfl⟩

/-- A concrete loaded series, input for evaluating the claims. -/
def sampleSeries : DicomSeries :=
  { series_uid := "1.2.3", series_description := "abdomen", modality := "MR"
    image_count := 2 }

/-- A concrete client state with a selected series and no cached artifacts,
input for evaluating the claims. -/
def sampleState : AppStore :=
  { initialState with
    series := [sampleSeries]
    selectedSeries := some sampleSeries
    images := [{ index := 0, instance_number := 1, slice_location := none },
               { index := 1, instance_number := 2, slice_location := none }] }

/-- C6: clearing a series' cached artifacts is idempotent — applying the
clear twice equals applying it once, it is a no-op without a selected series,
and clearing a series whose key has no cached analysis or model leaves both
tracking sets unchanged. -/
theorem claim_C6_clear_idempotent (s : AppStore) :
    clearSeriesResults (clearSeriesResults s) = clearSeriesResults s
    ∧ (s.selectedSeries = none → clearSeriesResults s = s)
    ∧ (∀ sel, s.selectedSeries = some sel →
        sel.series_uid ∉ s.analyzedSeriesIds →
        sel.series_uid ∉ s.modelSeriesIds →
        (clearSeriesResults s).analyzedSeriesIds = s.analyzedSeriesIds
        ∧ (clearSeriesResults s).modelSeriesIds = s.modelSeriesIds) := by
  refine ⟨?_, ?_, ?_⟩
  · cases hs : s.selectedSeries with
    | none => simp [clearSeriesResults, hs]
    | some sel => simp [clearSeriesResults, hs, Finset.erase_idem]
  · intro hs
    simp [clearSeriesResults, hs]
  · intro sel hs ha hm
    simp [clearSeriesResults, hs, Finset.erase_eq_of_not_mem ha,
      Finset.erase_eq_of_not_mem hm]

/-- Witness for C6 at a concrete state with a selected series and empty
tracking sets. -/
theorem claim_C6_witness :
    clearSeriesResults (clearSeriesResults sampleState) = clearSeriesResults sampleState
    ∧ ((clearSeriesResults sampleState).analyzedSeriesIds = sampleState.analyzedSeriesIds
       ∧ (clearSeriesResults sampleState).modelSeriesIds = sampleState.modelSeriesIds) :=
  ⟨(claim_C6_clear_idempotent sampleState).1,
   (claim_C6_clear_idempotent sampleState).2.2 sampleSeries rfl
     (by simp [sampleState, initialState]) (by simp [sampleState, initialState])⟩

/-- C7: the clear operations remove only the analysis and model artifacts —
after either clear the cached analysis result and model info are null and the
affected keys are out of the tracking sets, while the series list and the
loaded image stack are unchanged. -/
theorem claim_C7_clear_frame (s : AppStore) :
    ((clearAnalysisAndModels s).analysisResult = none
     ∧ (clearAnalysisAndModels s).modelInfo = none
     ∧ (clearAnalysisAndModels s).analyzedSeriesIds = ∅
     ∧ (clearAnalysisAndModels s).modelSeriesIds = ∅
     ∧ (clearAnalysisAndModels s).images = s.images
     ∧ (clearAnalysisAndModels s).series = s.series)
    ∧ (∀ sel, s.selectedSeries = some sel →
        (clearSeriesResults s).analysisResult = none
        ∧ (clearSeriesResults s).modelInfo = none
        ∧ sel.series_uid ∉ (clearSeriesResults s).analyzedSeriesIds
        ∧ sel.series_uid ∉ (clearSeriesResults s).modelSeriesIds
        ∧ (clearSeriesResults s).images = s.images
        ∧ (clearSeriesResults s).series = s.series) := by
  refine ⟨by simp [clearAnalysisAndModels], ?_⟩
  intro sel hs
  simp [clearSeriesResults, hs, Finset.not_mem_erase]

/-- Witness for C7 at a concrete state with a selected series. -/
theorem claim_C7_witness :
    (clearSeriesResults sampleState).analysisResult = none
    ∧ (clearSeriesResults sampleState).modelInfo = none
    ∧ sampleSeries.series_uid ∉ (clearSeriesResults sampleState).analyzedSeriesIds
    ∧ sampleSeries.series_uid ∉ (clearSeriesResults sampleState).modelSeriesIds
    ∧ (clearSeriesResults sampleState).images = sampleState.images
    ∧ (clearSeriesResults sampleState).series = sampleState.series :=
  (claim_C7_clear_frame sampleState).2 sampleSeries rfl

/-- The rendering attributes produced by one mesh update depend only on the
input mesh's rendering attributes, never on its name metadata. -/
theorem renderAttrs_updateMeshAt_congr (opac : String → Option Rat) (i : Nat)
    (a b : GlbMesh) (h : renderAttrs a = renderAttrs b) :
    renderAttrs (updateMeshAt opac i a) = renderAttrs (updateMeshAt opac i b) := by
  simp only [renderAttrs, Prod.mk.injEq] at h
  unfold updateMeshAt
  cases h1 : tissueOrder.get? i with
  | none => simpa [renderAttrs] using h
  | some key =>
    cases h2 : opac key with
    | none => simp [h2, renderAttrs, h.1, h.2.1, h.2.2]
    | some o => simp [h2, renderAttrs, h.2.1]

/-- The indexed traversal preserves rendering-attribute equivalence of mesh
lists. -/
theorem applyOpacityFrom_congr (opac : String → Option Rat) :
    ∀ (ms ms' : List GlbMesh) (j : Nat),
      ms.map renderAttrs = ms'.map renderAttrs →
      (applyOpacityFrom opac j ms).map renderAttrs
        = (applyOpacityFrom opac j ms').map renderAttrs := by
  intro ms
  induction ms with
  | nil =>
    intro ms' j h
    cases ms' with
    | nil => rfl
    | cons b bs => simp at h
  | cons a as ih =>
    intro ms' j h
    cases ms' with
    | nil => simp at h
    | cons b bs =>
      simp only [List.map_cons, List.cons.injEq] at h
      simp only [applyOpacityFrom, List.map_cons, List.cons.injEq]
      exact ⟨renderAttrs_updateMeshAt_congr opac j a b h.1, ih bs (j + 1) h.2⟩

/-- Renaming a mesh in place does not change the rendering attributes of the
list. -/
theorem renameAt_map_renderAttrs :
    ∀ (ms : List GlbMesh) (i : Nat) (n : String),
      (renameAt ms i n).map renderAttrs = ms.map renderAttrs := by
  intro ms
  induction ms with
  | nil => intro i n; rfl
  | cons a as ih =>
    intro i n
    cases i with
    | zero => simp [renameAt, renderAttrs]
    | succ j =>
      show (renameAt (a :: as) (j + 1) n).map renderAttrs = _
      unfold renameAt
      cases h : (a :: as).get? (j + 1) with
      | none => rfl
      | some m =>
        have hj : as.get? j = some m := h
        simp only [List.set]
        have := ih j n
        unfold renameAt at this
        rw [hj] at this
        simp only [List.map_cons, this]

/-- C1 counterexample: a mesh explicitly labeled `organs` in its metadata —
whose configured color as organs is 0x0080FF — placed first in the mesh list
is rendered with the body color and the body opacity: the viewer takes the
tissue identity from the list position, not from the metadata. -/
theorem claim_C1_counterexample :
    applyTissueOpacity DEFAULT_OPACITY
        [{ name := "organs", visible := true, materialColor := 0x0080FF, opacity := 1 }]
      = [{ name := "organs", visible := true, materialColor := 0xC8C8C8, opacity := 35 / 100 }]
    ∧ tissueColors "organs" = some 0x0080FF
    ∧ (0xC8C8C8 : Nat) ≠ 0x0080FF := by
  refine ⟨?_, by decide, by decide⟩
  show applyOpacityFrom _ 0 _ = _
  norm_num [applyOpacityFrom, updateMeshAt, tissueOrder, DEFAULT_OPACITY, tissueColors]

/-- C1 (amended): the tissue identity of each mesh in the 3D viewer is
determined solely by the mesh's position in the mesh list through the fixed
order [body, visceral_fat, organs]: changing a mesh's name metadata never
changes any rendered attribute, and in a three-mesh list the assigned colors
are exactly the body, visceral-fat and organs colors in that order whatever
the meshes are. -/
theorem claim_C1_position_indexed_identity :
    (∀ (opac : String → Option Rat) (ms : List GlbMesh) (i : Nat) (n : String),
      (applyTissueOpacity opac (renameAt ms i n)).map renderAttrs
        = (applyTissueOpacity opac ms).map renderAttrs)
    ∧ (∀ m0 m1 m2 : GlbMesh,
      (applyTissueOpacity DEFAULT_OPACITY [m0, m1, m2]).map GlbMesh.materialColor
        = [0xC8C8C8, 0xFFA500, 0x0080FF]) := by
  constructor
  · intro opac ms i n
    exact applyOpacityFrom_congr opac _ ms 0 (renameAt_map_renderAttrs ms i n)
  · intro m0 m1 m2
    show (applyOpacityFrom _ 0 _).map _ = _
    have h1 : ("visceral_fat" : String) ≠ "body" := by decide
    have h2 : ("organs" : String) ≠ "body" := by decide
    have h3 : ("organs" : String) ≠ "visceral_fat" := by decide
    have h4 : ("organs" : String) ≠ "subcutaneous_fat" := by decide
    norm_num [applyOpacityFrom, updateMeshAt, tissueOrder, DEFAULT_OPACITY,
      tissueColors, h1, h2, h3, h4]

/-- A non-terminal event only records itself as the current progress. -/
theorem progressStep_nonterminal (uid : String) (s : AppStore)
    (p : AnalysisProgress) (h : ¬ isTerminalEvent p) :
    progressStep uid s p = { s with analysisProgress := some p } := by
  unfold isTerminalEvent at h
  rw [not_or] at h
  unfold progressStep
  rw [if_neg h.1, if_neg h.2]

/-- A terminal event clears the analyzing flag. -/
theorem progressStep_terminal_isAnalyzing (uid : String) (s : AppStore)
    (p : AnalysisProgress) (h : isTerminalEvent p) :
    (progressStep uid s p).isAnalyzing = false := by
  unfold progressStep
  by_cases h1 : p.type = ProgressType.complete ∧ p.data.isSome
  · rw [if_pos h1]
  · rw [if_neg h1]
    rcases h with hc | he
    · exact absurd hc h1
    · rw [if_pos he]

/-- Folding a run of non-terminal events only changes the recorded current
progress. -/
theorem foldl_nonterminal (uid : String) :
    ∀ (pre : List AnalysisProgress) (s : AppStore),
      (∀ e ∈ pre, ¬ isTerminalEvent e) →
      ∃ q, pre.foldl (progressStep uid) s = { s with analysisProgress := q } := by
  intro pre
  induction pre with
  | nil =>
    intro s _
    exact ⟨s.analysisProgress, rfl⟩
  | cons e es ih =>
    intro s h
    rw [List.foldl_cons, progressStep_nonterminal uid s e (h e (by simp))]
    obtain ⟨q, hq⟩ := ih { s with analysisProgress := some e } (fun x hx => h x (by simp [hx]))
    exact ⟨q, hq⟩

/-- Along a run of non-terminal events followed by one terminal event, the
analyzing flag transitions from set to cleared exactly once. -/
theorem clearCount_terminal (uid : String) :
    ∀ (pre : List AnalysisProgress) (s : AppStore),
      (∀ e ∈ pre, ¬ isTerminalEvent e) → s.isAnalyzing = true →
      ∀ t, isTerminalEvent t → clearCount uid s (pre ++ [t]) = 1 := by
  intro pre
  induction pre with
  | nil =>
    intro s _ hs t ht
    simp only [List.nil_append, clearCount]
    rw [progressStep_terminal_isAnalyzing uid s t ht, hs]
    rfl
  | cons e es ih =>
    intro s h hs t ht
    simp only [List.cons_append, clearCount]
    rw [progressStep_nonterminal uid s e (h e (by simp))]
    have hs' : ({ s with analysisProgress := some e } : AppStore).isAnalyzing = true := hs
    have hrec := ih { s with analysisProgress := some e } (fun x hx => h x (by simp [hx])) hs' t ht
    simp only [List.append_eq]
    rw [hrec]
    simp [hs]

/-- C4: the consumer of the analysis progress stream treats the first
complete-with-payload or error event as the single terminal event — after
a run of non-terminal events ending in a terminal one, a complete event's
payload is stored as the new analysis result and the view switches to
analyzed, an error event's message is recorded, and in both cases the
analyzing flag ends cleared, having transitioned from set to cleared exactly
once along the run. -/
theorem claim_C4_terminal_event_handling (uid : String) (s0 : AppStore)
    (pre : List AnalysisProgress) (t : AnalysisProgress)
    (hpre : ∀ e ∈ pre, ¬ isTerminalEvent e) (ht : isTerminalEvent t)
    (h0 : s0.isAnalyzing = true) :
    ((pre ++ [t]).foldl (progressStep uid) s0).isAnalyzing = false
    ∧ (∀ d, t.type = ProgressType.complete → t.data = some d →
        ((pre ++ [t]).foldl (progressStep uid) s0).analysisResult = some d
        ∧ ((pre ++ [t]).foldl (progressStep uid) s0).viewMode = "analyzed")
    ∧ (t.type = ProgressType.error →
        ((pre ++ [t]).foldl (progressStep uid) s0).error = some t.message)
    ∧ clearCount uid s0 (pre ++ [t]) = 1 := by
  obtain ⟨q, hq⟩ := foldl_nonterminal uid pre s0 hpre
  have hfold : (pre ++ [t]).foldl (progressStep uid) s0
      = progressStep uid { s0 with analysisProgress := q } t := by
    rw [List.foldl_append, hq]
    rfl
  refine ⟨?_, ?_, ?_, clearCount_terminal uid pre s0 hpre h0 t ht⟩
  · rw [hfold]
    exact progressStep_terminal_isAnalyzing uid _ t ht
  · intro d hc hd
    rw [hfold]
    unfold progressStep
    rw [if_pos ⟨hc, by simp [hd]⟩]
    exact ⟨hd ▸ rfl, rfl⟩
  · intro he
    rw [hfold]
    unfold progressStep
    have h1 : ¬(t.type = ProgressType.complete ∧ t.data.isSome) := by
      rintro ⟨hc, _⟩
      rw [he] at hc
      exact absurd hc (by decide)
    rw [if_neg h1, if_pos he]

/-- A concrete completed analysis payload, input for evaluating the claims. -/
def wAnalysis : AnalysisResult :=
  { series_id := "1.2.3", image_count := 2, analyzed_images := []
    tissue_stats :=
      { total_visceral_fat_volume := 0, total_subcutaneous_fat_volume := 0
        visceral_fat_percentage := 0, slice_stats := [] } }

/-- A concrete start event. -/
def wStart : AnalysisProgress :=
  { type := .start, message := "Starting analysis", progress := 0
    total_images := some 2, current_image := none, step := none, data := none }

/-- A concrete per-image progress event. -/
def wProg : AnalysisProgress :=
  { type := .progress, message := "Analyzing image 1", progress := 50
    total_images := some 2, current_image := some 1
    step := some "analysis", data := none }

/-- A concrete terminal complete event carrying the payload. -/
def wComplete : AnalysisProgress :=
  { type := .complete, message := "Analysis complete", progress := 100
    total_images := some 2, current_image := some 2
    step := none, data := some wAnalysis }

/-- Witness for C4 on a concrete three-event run ending in a complete event. -/
theorem claim_C4_witness :
    (([wStart, wProg] ++ [wComplete]).foldl
        (progressStep "1.2.3") { sampleState with isAnalyzing := true }).isAnalyzing = false
    ∧ (([wStart, wProg] ++ [wComplete]).foldl
        (progressStep "1.2.3") { sampleState with isAnalyzing := true }).analysisResult
      = some wAnalysis
    ∧ (([wStart, wProg] ++ [wComplete]).foldl
        (progressStep "1.2.3") { sampleState with isAnalyzing := true }).viewMode = "analyzed"
    ∧ clearCount "1.2.3" { sampleState with isAnalyzing := true }
        ([wStart, wProg] ++ [wComplete]) = 1 := by
  have h := claim_C4_terminal_event_handling "1.2.3"
    { sampleState with isAnalyzing := true } [wStart, wProg] wComplete
    (by decide) (by decide) rfl
  exact ⟨h.1, (h.2.1 wAnalysis rfl rfl).1, (h.2.1 wAnalysis rfl rfl).2, h.2.2.2⟩

/-- A buffer from which no complete frame was split is returned whole. -/
theorem splitFrames_nil_residue :
    ∀ x, (splitFrames x).1 = [] → (splitFrames x).2 = x := by
  intro x
  induction x using splitFrames.induct with
  | case1 => intro _; rfl
  | case2 c => intro _; rfl
  | case3 c d rest hc ih =>
    intro h
    rw [splitFrames, if_pos hc] at h
    simp at h
  | case4 c d rest hc pdef r heq ih =>
    intro _
    have hq : splitFrames (d :: rest) = ([], r) := heq
    have h1 : (splitFrames (d :: rest)).1 = [] := by rw [hq]
    have hr : r = d :: rest := by
      have h2 := ih h1
      rw [hq] at h2
      exact h2
    rw [splitFrames, if_neg hc, hq, hr]
  | case5 c d rest hc pdef s ss r heq ih =>
    intro h
    exfalso
    have hq : splitFrames (d :: rest) = (s :: ss, r) := heq
    rw [splitFrames, if_neg hc, hq] at h
    simp at h

/-- Splitting a concatenation equals splitting the first part and resuming
from its retained buffer: the incremental frame splitter is insensitive to
where the stream is cut. -/
theorem splitFrames_append :
    ∀ (a b : List Char), splitFrames (a ++ b)
      = ((splitFrames a).1 ++ (splitFrames ((splitFrames a).2 ++ b)).1,
         (splitFrames ((splitFrames a).2 ++ b)).2) := by
  intro a b
  induction a using splitFrames.induct with
  | case1 =>
    have h1 : splitFrames ([] : List Char) = ([], []) := rfl
    rw [h1]
    simp
  | case2 c =>
    have h1 : splitFrames [c] = ([], [c]) := rfl
    rw [h1]
    simp
  | case3 c d rest hc ih =>
    have e1 : splitFrames (c :: d :: rest)
        = ([] :: (splitFrames rest).1, (splitFrames rest).2) := by
      rw [splitFrames, if_pos hc]
    have e3 : splitFrames (c :: d :: (rest ++ b))
        = ([] :: (splitFrames (rest ++ b)).1, (splitFrames (rest ++ b)).2) := by
      rw [splitFrames, if_pos hc]
    show splitFrames (c :: d :: (rest ++ b)) = _
    rw [e3, ih, e1]
    simp
  | case4 c d rest hc pdef r heq ih =>
    have hq : splitFrames (d :: rest) = ([], r) := heq
    have h1 : (splitFrames (d :: rest)).1 = [] := by rw [hq]
    have hr : r = d :: rest := by
      have h2 := splitFrames_nil_residue (d :: rest) h1
      rw [hq] at h2
      exact h2
    have ea : splitFrames (c :: d :: rest) = ([], c :: d :: rest) := by
      rw [splitFrames, if_neg hc, hq, hr]
    show splitFrames (c :: d :: (rest ++ b)) = _
    rw [ea]
    simp
  | case5 c d rest hc pdef s ss r heq ih =>
    have hq : splitFrames (d :: rest) = (s :: ss, r) := heq
    have ea : splitFrames (c :: d :: rest) = ((c :: s) :: ss, r) := by
      rw [splitFrames, if_neg hc, hq]
    have hstep : (d :: rest) ++ b = d :: (rest ++ b) := rfl
    have hsplit : splitFrames (d :: (rest ++ b))
        = (s :: (ss ++ (splitFrames (r ++ b)).1), (splitFrames (r ++ b)).2) := by
      rw [← hstep, ih, hq]
      simp
    show splitFrames (c :: d :: (rest ++ b)) = _
    rw [splitFrames, if_neg hc, hsplit, ea]
    simp

/-- The retained buffer never contains a complete frame: splitting it again
yields no frames and the same buffer. -/
theorem splitFrames_residue_stable (x : List Char) :
    splitFrames (splitFrames x).2 = ([], (splitFrames x).2) := by
  have h := splitFrames_append x []
  rw [List.append_nil, List.append_nil] at h
  have h1 : (splitFrames x).1 = (splitFrames x).1 ++ (splitFrames (splitFrames x).2).1 :=
    congrArg Prod.fst h
  have hB1 : (splitFrames (splitFrames x).2).1 = [] := by
    have := List.append_right_eq_self.mp h1.symm
    exact this
  have hB2 := splitFrames_nil_residue (splitFrames x).2 hB1
  rw [Prod.ext_iff]
  exact ⟨hB1, hB2⟩

/-- Folding the reader loop over any chunk list starting from a state whose
buffer holds no complete frame appends exactly the events of the frames of
the buffered stream, in stream order, and retains the unterminated tail. -/
theorem processStream_chunks (decode : List Char → Option AnalysisProgress) :
    ∀ (chunks : List (List Char)) (st : List AnalysisProgress × List Char),
      (splitFrames st.2).1 = [] →
      chunks.foldl (processChunk decode) st
        = (st.1 ++ (splitFrames (st.2 ++ chunks.flatten)).1.filterMap (parseFrame decode),
           (splitFrames (st.2 ++ chunks.flatten)).2) := by
  intro chunks
  induction chunks with
  | nil =>
    intro st h
    simp only [List.foldl_nil, List.flatten_nil, List.append_nil]
    rw [h, splitFrames_nil_residue st.2 h]
    simp
  | cons c cs ih =>
    intro st h
    rw [List.foldl_cons]
    have hnew : (splitFrames (processChunk decode st c).2).1 = [] := by
      show (splitFrames (splitFrames (st.2 ++ c)).2).1 = []
      rw [splitFrames_residue_stable]
    rw [ih (processChunk decode st c) hnew]
    show (st.1 ++ (splitFrames (st.2 ++ c)).1.filterMap (parseFrame decode)
            ++ (splitFrames ((splitFrames (st.2 ++ c)).2 ++ cs.flatten)).1.filterMap
                 (parseFrame decode),
          (splitFrames ((splitFrames (st.2 ++ c)).2 ++ cs.flatten)).2) = _
    have hj : st.2 ++ (c :: cs).flatten = (st.2 ++ c) ++ cs.flatten := by
      rw [List.flatten_cons, List.append_assoc]
    rw [hj, splitFrames_append (st.2 ++ c) cs.flatten]
    simp [List.filterMap_append, List.append_assoc]

/-- C8: the progress-stream parser delivers the decoded event of every
complete `data: `-prefixed frame terminated by a blank line, exactly once
and in stream order, skipping frames whose payload fails to decode without
ending the stream — and the delivered sequence and final buffer depend only
on the concatenated stream, never on how it was cut into chunks. -/
theorem claim_C8_chunking_independent (decode : List Char → Option AnalysisProgress)
    (chunks chunks' : List (List Char)) :
    (processStream decode chunks).1
      = (splitFrames chunks.flatten).1.filterMap (parseFrame decode)
    ∧ (chunks.flatten = chunks'.flatten →
        processStream decode chunks = processStream decode chunks') := by
  have h0 : (splitFrames ([] : List Char)).1 = [] := rfl
  have h := processStream_chunks decode chunks ([], []) h0
  have h' := processStream_chunks decode chunks' ([], []) h0
  constructor
  · rw [processStream, h]
    simp
  · intro he
    rw [processStream, processStream, h, h', he]

/-- A concrete decoder for evaluating the parser: the payload `1` decodes to
the sample progress event, everything else is malformed. -/
def wDecode : List Char → Option AnalysisProgress :=
  fun cs => if cs = ['1'] then some wProg else none

/-- A fine-grained chunking of a concrete stream with one well-formed and one
malformed frame. -/
def wChunksA : List (List Char) :=
  [['d', 'a'], ['t', 'a', ':', ' ', '1', '\n'], ['\n', 'd'],
   ['a', 't', 'a', ':', ' ', '?', '\n', '\n', 'x']]

/-- The same stream delivered as a single chunk. -/
def wChunksB : List (List Char) :=
  [['d', 'a', 't', 'a', ':', ' ', '1', '\n', '\n', 'd',
    'a', 't', 'a', ':', ' ', '?', '\n', '\n', 'x']]

/-- Witness for C8: on the concrete stream the events equal the per-frame
decode of the unchunked stream, and the two chunkings agree. -/
theorem claim_C8_witness :
    (processStream wDecode wChunksA).1
      = (splitFrames wChunksA.flatten).1.filterMap (parseFrame wDecode)
    ∧ processStream wDecode wChunksA = processStream wDecode wChunksB :=
  ⟨(claim_C8_chunking_independent wDecode wChunksA wChunksB).1,
   (claim_C8_chunking_independent wDecode wChunksA wChunksB).2 (by decide)⟩

/-- Every completion of the startup action from the initial state either
leaves the no-series shape (original view, empty image stack, index 0, no
artifacts) or ends in the restore shape (fetched images, clamped index, and
the resolved view mode over the fetched artifacts). -/
theorem initStore_shape (d : Option InitData) (ru rm ri : Option String)
    (fi : String → Option (List DicomImage)) (fa : String → Option AnalysisResult)
    (fm : String → Option ModelInfo) :
    ((initStore initialState d ru rm ri fi fa fm).viewMode = "original"
      ∧ (initStore initialState d ru rm ri fi fa fm).images = []
      ∧ (initStore initialState d ru rm ri fi fa fm).selectedImageIndex = 0
      ∧ (initStore initialState d ru rm ri fi fa fm).analysisResult = none
      ∧ (initStore initialState d ru rm ri fi fa fm).modelInfo = none)
    ∨ (∃ images ar mi idx mode,
        (initStore initialState d ru rm ri fi fa fm).images = images
        ∧ (initStore initialState d ru rm ri fi fa fm).selectedImageIndex
            = clampIndex idx images.length
        ∧ (initStore initialState d ru rm ri fi fa fm).analysisResult = ar
        ∧ (initStore initialState d ru rm ri fi fa fm).modelInfo = mi
        ∧ (initStore initialState d ru rm ri fi fa fm).viewMode
            = resolveViewMode mode ar mi) := by
  unfold initStore
  split
  · left; exact ⟨rfl, rfl, rfl, rfl, rfl⟩
  · dsimp only
    split
    · left; exact ⟨rfl, rfl, rfl, rfl, rfl⟩
    · split
      · left; exact ⟨rfl, rfl, rfl, rfl, rfl⟩
      · split
        · left; exact ⟨rfl, rfl, rfl, rfl, rfl⟩
        · split
          · left; exact ⟨rfl, rfl, rfl, rfl, rfl⟩
          · right
            exact ⟨_, _, _, _, _, rfl, rfl, rfl, rfl, rfl⟩

/-- The resolved view mode is 3d only when a model is present. -/
theorem resolveViewMode_eq_3d (mode : String) (ar : Option AnalysisResult)
    (mi : Option ModelInfo) (h : resolveViewMode mode ar mi = "3d") :
    mi.isSome = true := by
  simp only [resolveViewMode] at h
  by_cases hA : mode = "analyzed" ∧ ar = none
  · rw [if_pos hA] at h
    by_cases hB : ("original" : String) = "3d" ∧ mi = none
    · exact absurd hB.1 (by decide)
    · rw [if_neg hB] at h
      exact absurd h (by decide)
  · rw [if_neg hA] at h
    by_cases hB : mode = "3d" ∧ mi = none
    · rw [if_pos hB] at h
      split at h <;> exact absurd h (by decide)
    · rw [if_neg hB] at h
      rw [h] at hB
      simp at hB
      exact Option.ne_none_iff_isSome.mp hB

/-- The resolved view mode is analyzed only when an analysis is present. -/
theorem resolveViewMode_eq_analyzed (mode : String) (ar : Option AnalysisResult)
    (mi : Option ModelInfo) (h : resolveViewMode mode ar mi = "analyzed") :
    ar.isSome = true := by
  simp only [resolveViewMode] at h
  by_cases hA : mode = "analyzed" ∧ ar = none
  · rw [if_pos hA] at h
    by_cases hB : ("original" : String) = "3d" ∧ mi = none
    · rw [if_pos hB] at h
      exact absurd hB.1 (by decide)
    · rw [if_neg hB] at h
      exact absurd h (by decide)
  · rw [if_neg hA] at h
    by_cases hB : mode = "3d" ∧ mi = none
    · rw [if_pos hB] at h
      split at h
      · assumption
      · exact absurd h (by decide)
    · rw [if_neg hB] at h
      rw [h] at hA
      simp at hA
      exact Option.ne_none_iff_isSome.mp hA

/-- A saved index clamped against an empty image list yields 0. -/
theorem clampIndex_zero_len (v : Option Int) : clampIndex v 0 = 0 := by
  cases v with
  | none => rfl
  | some x =>
    simp only [clampIndex, Nat.cast_zero]
    have hmin : min (max 0 x) ((0 : Int) - 1) ≤ (0 : Int) - 1 := min_le_right _ _
    set m := min (max 0 x) ((0 : Int) - 1) with hm
    rw [if_neg (by omega)]

/-- A saved index clamped against a nonempty image list lies within bounds. -/
theorem clampIndex_bounds (v : Option Int) (len : Nat) (h : 0 < len) :
    0 ≤ clampIndex v len ∧ clampIndex v len ≤ (len : Int) - 1 := by
  have h3 : (1 : Int) ≤ (len : Int) := by exact_mod_cast h
  cases v with
  | none =>
    simp only [clampIndex]
    exact ⟨le_refl 0, by omega⟩
  | some x =>
    simp only [clampIndex]
    have h2 : min (max 0 x) ((len : Int) - 1) ≤ (len : Int) - 1 := min_le_right _ _
    set m := min (max 0 x) ((len : Int) - 1) with hm
    by_cases hge : m ≥ 0
    · rw [if_pos hge]
      exact ⟨hge, h2⟩
    · rw [if_neg hge]
      exact ⟨le_refl 0, by omega⟩

/-- The init payload for a concrete restore run. -/
def wInit : InitData :=
  { series := [sampleSeries], analyzed_series := [], model_series := [] }

/-- A concrete image fetch returning two slices for any series. -/
def wFetchImages : String → Option (List DicomImage) :=
  fun _ => some [{ index := 0, instance_number := 1, slice_location := none },
                 { index := 1, instance_number := 2, slice_location := none }]

/-- A concrete cached model summary. -/
def wModel : ModelInfo :=
  { series_id := "1.2.3", tissues := [], slice_count := 2, dimensions := []
    voxel_spacing := [], glb_path := none, obj_path := none }

/-- C9 counterexample: restoring a saved view mode that is not one of the
three valid modes does not fall back — the bogus string is installed as the
store's view mode unchanged. -/
theorem claim_C9_counterexample :
    (initStore initialState (some wInit) (some "1.2.3") (some "xyz") (some "0")
        wFetchImages (fun _ => none) (fun _ => none)).viewMode = "xyz"
    ∧ ¬ ((initStore initialState (some wInit) (some "1.2.3") (some "xyz") (some "0")
        wFetchImages (fun _ => none) (fun _ => none)).viewMode = "analyzed"
      ∨ (initStore initialState (some wInit) (some "1.2.3") (some "xyz") (some "0")
        wFetchImages (fun _ => none) (fun _ => none)).viewMode = "original") := by
  decide

/-- C9 (amended): after session restore on startup the view mode is
consistent with the available artifacts — a final 3d mode implies a model is
present and a final analyzed mode implies an analysis is present; a saved
analyzed mode without an analysis falls back to original, a saved 3d mode
without a model falls back to analyzed when an analysis exists and to
original otherwise, and a missing saved mode defaults to original (an
invalid saved string is restored unchanged, see the counterexample). -/
theorem claim_C9_view_mode_consistency (d : Option InitData)
    (ru rm ri : Option String)
    (fi : String → Option (List DicomImage)) (fa : String → Option AnalysisResult)
    (fm : String → Option ModelInfo) :
    ((initStore initialState d ru rm ri fi fa fm).viewMode = "3d" →
      (initStore initialState d ru rm ri fi fa fm).modelInfo.isSome = true)
    ∧ ((initStore initialState d ru rm ri fi fa fm).viewMode = "analyzed" →
      (initStore initialState d ru rm ri fi fa fm).analysisResult.isSome = true)
    ∧ (∀ mi : Option ModelInfo, resolveViewMode "analyzed" none mi = "original")
    ∧ (∀ ar : Option AnalysisResult, resolveViewMode "3d" ar none
        = if ar.isSome then "analyzed" else "original")
    ∧ (∀ u i, (loadViewState u none i).viewMode = "original") := by
  refine ⟨?_, ?_, ?_, ?_, ?_⟩
  · intro h3d
    rcases initStore_shape d ru rm ri fi fa fm with
      ⟨hv, _, _, _, _⟩ | ⟨images, ar, mi, idx, mode, _, _, _, hm, hv⟩
    · rw [hv] at h3d
      exact absurd h3d (by decide)
    · rw [hv] at h3d
      rw [hm]
      exact resolveViewMode_eq_3d mode ar mi h3d
  · intro han
    rcases initStore_shape d ru rm ri fi fa fm with
      ⟨hv, _, _, _, _⟩ | ⟨images, ar, mi, idx, mode, _, _, ha, _, hv⟩
    · rw [hv] at han
      exact absurd han (by decide)
    · rw [hv] at han
      rw [ha]
      exact resolveViewMode_eq_analyzed mode ar mi han
  · intro mi
    have hne : ("original" : String) ≠ "3d" := by decide
    simp [resolveViewMode, hne]
  · intro ar
    have hne : ("3d" : String) ≠ "analyzed" := by decide
    simp [resolveViewMode, hne]
  · intro u i
    rfl

/-- Witness for C9: a restore that completes in 3d mode indeed holds a model,
and the analyzed-without-analysis fallback evaluates to original. -/
theorem claim_C9_witness :
    (initStore initialState (some wInit) (some "1.2.3") (some "3d") (some "0")
        wFetchImages (fun _ => none) (fun _ => some wModel)).modelInfo.isSome = true
    ∧ resolveViewMode "analyzed" none none = "original" :=
  ⟨(claim_C9_view_mode_consistency (some wInit) (some "1.2.3") (some "3d") (some "0")
      wFetchImages (fun _ => none) (fun _ => some wModel)).1 (by decide),
   (claim_C9_view_mode_consistency (some wInit) (some "1.2.3") (some "3d") (some "0")
      wFetchImages (fun _ => none) (fun _ => some wModel)).2.2.1 none⟩

/-- C10: after startup restore the selected slice index is always in bounds —
whatever the localStorage content (missing, negative, too large or
non-numeric), the index lies within [0, images.length − 1] when images are
present and is 0 when the image list is empty. -/
theorem claim_C10_restored_index_in_bounds (d : Option InitData)
    (ru rm ri : Option String)
    (fi : String → Option (List DicomImage)) (fa : String → Option AnalysisResult)
    (fm : String → Option ModelInfo) :
    ((initStore initialState d ru rm ri fi fa fm).images = [] →
      (initStore initialState d ru rm ri fi fa fm).selectedImageIndex = 0)
    ∧ ((initStore initialState d ru rm ri fi fa fm).images ≠ [] →
      0 ≤ (initStore initialState d ru rm ri fi fa fm).selectedImageIndex
      ∧ (initStore initialState d ru rm ri fi fa fm).selectedImageIndex
          ≤ ((initStore initialState d ru rm ri fi fa fm).images.length : Int) - 1) := by
  rcases initStore_shape d ru rm ri fi fa fm with
    ⟨_, hi, hx, _, _⟩ | ⟨images, ar, mi, idx, mode, hi, hx, _, _, _⟩
  · constructor
    · intro _
      exact hx
    · intro hne
      exact absurd hi hne
  · constructor
    · intro hnil
      rw [hi] at hnil
      rw [hx, hnil]
      exact clampIndex_zero_len idx
    · intro hne
      rw [hi] at hne
      have hlen : 0 < images.length := List.length_pos.mpr hne
      rw [hx, hi]
      exact clampIndex_bounds idx images.length hlen

/-- Witness for C10: a restore with a saved index of 99 against two images
lands in bounds, and a run that loads no series keeps index 0. -/
theorem claim_C10_witness :
    (0 ≤ (initStore initialState (some wInit) (some "1.2.3") (some "3d") (some "99")
        wFetchImages (fun _ => none) (fun _ => none)).selectedImageIndex
     ∧ (initStore initialState (some wInit) (some "1.2.3") (some "3d") (some "99")
        wFetchImages (fun _ => none) (fun _ => none)).selectedImageIndex
        ≤ ((initStore initialState (some wInit) (some "1.2.3") (some "3d") (some "99")
            wFetchImages (fun _ => none) (fun _ => none)).images.length : Int) - 1)
    ∧ (initStore initialState none none none none
        wFetchImages (fun _ => none) (fun _ => none)).selectedImageIndex = 0 :=
  ⟨(claim_C10_restored_index_in_bounds (some wInit) (some "1.2.3") (some "3d") (some "99")
      wFetchImages (fun _ => none) (fun _ => none)).2 (by decide),
   (claim_C10_restored_index_in_bounds none none none none
      wFetchImages (fun _ => none) (fun _ => none)).1 (by decide)⟩
